import Mathlib

/-!
Verification of the Linux AT-SPI bridge server
(`src/platforms/linux/zylix-test/zylix_test_server.py`) against its
natural-language specification.

The server is embedded shallowly: accessibility-tree nodes become the
inductive `AccNode`, process-wide mutable registries become the explicit
`SrvState` record threaded through the handlers, and platform calls that
can raise (`get_child_count`) are given an `Except` channel.  A child slot
whose access yields no node is modelled as a `none` entry in a node's
`children` list, mirroring the `if child:` guards in the source.
-/

/-- AT-SPI roles used by the server's role maps (`Atspi.Role.*` in the
source); `other` stands for any role outside that set. -/
inductive Role where
  | pushButton | text | entry | label | menu | menuItem | menuBar
  | checkBox | radioButton | comboBox | list | listItem | tree | treeItem
  | pageTab | pageTabList | scrollBar | slider | progressBar
  | frame | window | dialog | panel | toolBar | statusBar
  | other
deriving DecidableEq, Repr

/-- Component interface of a node: `get_position` gives `(px, py)` and
`get_size` gives `(sx, sy)` (width, height), as in the source's
`pos.x/pos.y/size.x/size.y`. -/
structure CompIface where
  px : Int
  py : Int
  sx : Int
  sy : Int
deriving DecidableEq, Repr

/-- A live accessibility-tree node (`Atspi.Accessible`).
`role`/`name`/`descr` model `get_role`/`get_name`/`get_description`
(the latter two may be `None`); `procId` models `get_process_id`
(`none` when the call fails, which `find_app_by_pid` skips);
`childCountOk` is `false` when `get_child_count` raises (the search code
has no handler for that); a `none` entry of `children` is a child index
whose `get_child_at_index` yields no node (skipped by `if child:`);
`actions` models the action interface as the list of
`(get_action_name i, do_action i)` pairs; `component` models
`get_component` together with the position/size queries: `.error` when
that interface access raises, `.ok none` when no component interface. -/
inductive AccNode where
  | mk (role : Role) (name : Option String) (descr : Option String)
       (procId : Option Nat)
       (childCountOk : Bool) (children : List (Option AccNode))
       (actions : Option (List (String × Bool)))
       (component : Except String (Option CompIface))

def AccNode.roleOf : AccNode → Role
  | .mk r _ _ _ _ _ _ _ => r

def AccNode.nameOf : AccNode → Option String
  | .mk _ n _ _ _ _ _ _ => n

def AccNode.descrOf : AccNode → Option String
  | .mk _ _ d _ _ _ _ _ => d

def AccNode.procIdOf : AccNode → Option Nat
  | .mk _ _ _ p _ _ _ _ => p

def AccNode.childCountOkOf : AccNode → Bool
  | .mk _ _ _ _ cc _ _ _ => cc

def AccNode.childrenOf : AccNode → List (Option AccNode)
  | .mk _ _ _ _ _ cs _ _ => cs

def AccNode.actionsOf : AccNode → Option (List (String × Bool))
  | .mk _ _ _ _ _ _ a _ => a

def AccNode.componentOf : AccNode → Except String (Option CompIface)
  | .mk _ _ _ _ _ _ _ c => c

theorem AccNode.sizeOf_child_lt {cs : List (Option AccNode)} {c : Option AccNode}
    {x : AccNode} (hc : c ∈ cs) (hx : c = some x) : sizeOf x < sizeOf cs := by
  have h1 : sizeOf c < sizeOf cs := List.sizeOf_lt_of_mem hc
  subst hx
  simp only [Option.some.sizeOf_spec] at h1
  omega

/-- Structural induction over `AccNode` that hands the inductive
hypothesis for every present child. -/
theorem AccNode.ind (P : AccNode → Prop)
    (step : ∀ t : AccNode,
      (∀ c ∈ t.childrenOf, ∀ x, c = some x → P x) → P t) :
    ∀ t, P t
  | .mk r n d p cc cs a comp =>
    step (.mk r n d p cc cs a comp) (fun c hc x hx =>
      have : sizeOf x < sizeOf cs :=
        AccNode.sizeOf_child_lt (by simpa [AccNode.childrenOf] using hc) hx
      AccNode.ind P step x)
termination_by t => sizeOf t
decreasing_by
  simp only [AccNode.mk.sizeOf_spec]
  omega

/-- Python's `x or ""` on an optional string (`get_name() or ""`). -/
def orEmpty : Option String → String
  | none => ""
  | some s => s

/-- Python's `s.lower()`: lower-case each character (the embedding of
the case-insensitive comparisons; basic-latin, as `Char.toLower`). -/
def pyLower (s : String) : String := ⟨s.data.map Char.toLower⟩

/-- Python's substring test `needle in hay` on lists of characters. -/
def strInChars (n : List Char) : List Char → Bool
  | [] => n.isEmpty
  | c :: t => n.isPrefixOf (c :: t) || strInChars n t

/-- Python's substring test `needle in hay` on strings. -/
def strIn (needle hay : String) : Bool := strInChars needle.data hay.data

/-- The `role_map` dict literal of `find_element_by_role` (26 entries). -/
def roleMapFindOne : List (String × Role) :=
  [("push button", .pushButton), ("button", .pushButton), ("text", .text),
   ("entry", .entry), ("label", .label), ("menu", .menu),
   ("menu item", .menuItem), ("menu bar", .menuBar),
   ("check box", .checkBox), ("radio button", .radioButton),
   ("combo box", .comboBox), ("list", .list), ("list item", .listItem),
   ("tree", .tree), ("tree item", .treeItem), ("tab", .pageTab),
   ("tab list", .pageTabList), ("scroll bar", .scrollBar),
   ("slider", .slider), ("progress bar", .progressBar), ("frame", .frame),
   ("window", .window), ("dialog", .dialog), ("panel", .panel),
   ("toolbar", .toolBar), ("status bar", .statusBar)]

/-- The `role_map` dict literal of `find_elements_by_role` (5 entries). -/
def roleMapFindMany : List (String × Role) :=
  [("push button", .pushButton), ("button", .pushButton), ("text", .text),
   ("entry", .entry), ("label", .label)]

mutual

/-- The inner `search` of `find_element_by_role`: test the node's role,
then scan the children; a failing `get_child_count` propagates (no
handler in the source), a `none` child is skipped by `if child:`. -/
def searchRole (t : Role) (node : AccNode) : Except String (Option AccNode) :=
  match node with
  | .mk r _ _ _ ccOk cs _ _ =>
    if r = t then .ok (some node)
    else if ccOk then searchRoleList t cs
    else .error "get_child_count failed"

def searchRoleList (t : Role) : List (Option AccNode) → Except String (Option AccNode)
  | [] => .ok none
  | none :: rest => searchRoleList t rest
  | some c :: rest => do
    let r ← searchRole t c
    match r with
    | some x => .ok (some x)
    | none => searchRoleList t rest

end

mutual

/-- The inner `search` of `find_element_by_name`: case-insensitive
substring match on `get_name() or ""`. -/
def searchName (nm : String) (node : AccNode) : Except String (Option AccNode) :=
  match node with
  | .mk _ n _ _ ccOk cs _ _ =>
    if strIn (pyLower nm) (pyLower (orEmpty n)) then .ok (some node)
    else if ccOk then searchNameList nm cs
    else .error "get_child_count failed"

def searchNameList (nm : String) : List (Option AccNode) → Except String (Option AccNode)
  | [] => .ok none
  | none :: rest => searchNameList nm rest
  | some c :: rest => do
    let r ← searchName nm c
    match r with
    | some x => .ok (some x)
    | none => searchNameList nm rest

end

mutual

/-- The inner `search` of `find_element_by_description`. -/
def searchDescr (ds : String) (node : AccNode) : Except String (Option AccNode) :=
  match node with
  | .mk _ _ d _ ccOk cs _ _ =>
    if strIn (pyLower ds) (pyLower (orEmpty d)) then .ok (some node)
    else if ccOk then searchDescrList ds cs
    else .error "get_child_count failed"

def searchDescrList (ds : String) : List (Option AccNode) → Except String (Option AccNode)
  | [] => .ok none
  | none :: rest => searchDescrList ds rest
  | some c :: rest => do
    let r ← searchDescr ds c
    match r with
    | some x => .ok (some x)
    | none => searchDescrList ds rest

end

mutual

/-- The inner `search` of `find_elements_by_role`: collect every match
in pre-order (the node itself, then its children left to right). -/
def collectRole (t : Role) (node : AccNode) : Except String (List AccNode) :=
  match node with
  | .mk r _ _ _ ccOk cs _ _ => do
    let here := if r = t then [node] else []
    if ccOk then
      let rest ← collectRoleList t cs
      .ok (here ++ rest)
    else .error "get_child_count failed"

def collectRoleList (t : Role) : List (Option AccNode) → Except String (List AccNode)
  | [] => .ok []
  | none :: rest => collectRoleList t rest
  | some c :: rest => do
    let r ← collectRole t c
    let rs ← collectRoleList t rest
    .ok (r ++ rs)

end

/-- `find_element_by_role`: map the human-readable role name through
`role_map` (unknown name means no match), then depth-first search. -/
def find_element_by_role (root : AccNode) (role_name : String) :
    Except String (Option AccNode) :=
  match roleMapFindOne.lookup (pyLower role_name) with
  | none => .ok none
  | some t => searchRole t root

/-- `find_element_by_name`. -/
def find_element_by_name (root : AccNode) (name : String) :
    Except String (Option AccNode) :=
  searchName name root

/-- `find_element_by_description`. -/
def find_element_by_description (root : AccNode) (desc : String) :
    Except String (Option AccNode) :=
  searchDescr desc root

/-- `find_elements_by_role`: unknown role name yields `[]` without any
traversal; otherwise collect all pre-order matches. -/
def find_elements_by_role (root : AccNode) (role_name : String) :
    Except String (List AccNode) :=
  match roleMapFindMany.lookup (pyLower role_name) with
  | none => .ok []
  | some t => collectRole t root

/-- `find_app_by_name`: scan the desktop's top-level applications (a
`none` entry is an application slot whose access yielded no node, skipped
by `if app and ...`) for a case-insensitive substring match on the name. -/
def find_app_by_name (desktop : List (Option AccNode)) (name : String) :
    Option AccNode :=
  match desktop with
  | [] => none
  | none :: rest => find_app_by_name rest name
  | some app :: rest =>
    if strIn (pyLower name) (pyLower (orEmpty app.nameOf)) then some app
    else find_app_by_name rest name

/-- `find_app_by_pid`: scan the desktop for an application whose
`get_process_id` equals `pid`; applications whose id query fails
(`procId = none`) are skipped by the `try/except`. -/
def find_app_by_pid (desktop : List (Option AccNode)) (pid : Nat) :
    Option AccNode :=
  match desktop with
  | [] => none
  | none :: rest => find_app_by_pid rest pid
  | some app :: rest =>
    if app.procIdOf = some pid then some app
    else find_app_by_pid rest pid

/-- `find_window` scans the direct children of an application for a
frame/window/dialog, optionally filtered by window-name substring.  The
`app.get_child_count()` read uses the same failure channel as the
searches; a raising read propagates (caught only by `handle_launch`'s
outer `try`). -/
def find_window (app : AccNode) (name : Option String) :
    Except String (Option AccNode) :=
  match app with
  | .mk _ _ _ _ ccOk cs _ _ =>
    if ccOk then .ok (findWindowScan cs name) else .error "get_child_count failed"
where
  findWindowScan : List (Option AccNode) → Option String → Option AccNode
    | [], _ => none
    | none :: rest, nm => findWindowScan rest nm
    | some child :: rest, nm =>
      if child.roleOf = .frame ∨ child.roleOf = .window ∨ child.roleOf = .dialog then
        match nm with
        | none => some child
        | some s =>
          if strIn (pyLower s) (pyLower (orEmpty child.nameOf)) then some child
          else findWindowScan rest nm
      else findWindowScan rest nm

/-- Decode a list of decimal digit characters, most significant first,
accumulating into `acc`; left inverse of the digit printing used by
`Nat.repr`. -/
def decDigits (acc : Nat) : List Char → Nat
  | [] => acc
  | c :: cs => decDigits (acc * 10 + (c.toNat - 48)) cs

/-- Append the decimal digits of `n` below the accumulator `acc`. -/
def pushDec (acc n : Nat) : Nat :=
  if n < 10 then acc * 10 + n
  else pushDec acc (n / 10) * 10 + n % 10
termination_by n
decreasing_by
  exact Nat.div_lt_self (by omega) (by omega)

theorem decDigits_nil (acc : Nat) : decDigits acc [] = acc := rfl

theorem decDigits_cons (acc : Nat) (c : Char) (ds : List Char) :
    decDigits acc (c :: ds) = decDigits (acc * 10 + (c.toNat - 48)) ds := rfl

theorem digitChar_toNat {k : Nat} (h : k < 10) : (Nat.digitChar k).toNat = 48 + k := by
  revert h
  revert k
  decide

theorem pushDec_lt {acc n : Nat} (h : n < 10) : pushDec acc n = acc * 10 + n := by
  rw [pushDec]
  simp [h]

theorem pushDec_ge {acc n : Nat} (h : ¬ n < 10) :
    pushDec acc n = pushDec acc (n / 10) * 10 + n % 10 := by
  rw [pushDec]
  simp [h]

theorem pushDec_zero (n : Nat) : pushDec 0 n = n := by
  induction n using pushDec.induct 0 with
  | case1 n h => rw [pushDec]; simp [h]
  | case2 n h ih =>
    rw [pushDec]
    simp only [if_neg h, ih]
    omega

theorem decDigits_toDigitsCore (f : Nat) :
    ∀ n, n < f → ∀ acc ds,
      decDigits acc (Nat.toDigitsCore 10 f n ds) = decDigits (pushDec acc n) ds := by
  induction f with
  | zero => intro n h; omega
  | succ f ih =>
    intro n h acc ds
    rw [Nat.toDigitsCore]
    by_cases h10 : n / 10 = 0
    · have hn : n < 10 := by omega
      rw [if_pos h10, decDigits_cons, digitChar_toNat (Nat.mod_lt n (by omega)),
        pushDec_lt hn]
      congr 1
      have := Nat.mod_eq_of_lt hn
      omega
    · have hge : ¬ n < 10 := by
        intro hc
        exact h10 (Nat.div_eq_of_lt hc)
      have hlt : n / 10 < f := by
        have : n / 10 < n := Nat.div_lt_self (by omega) (by omega)
        omega
      rw [if_neg h10, ih (n / 10) hlt acc (Nat.digitChar (n % 10) :: ds),
        decDigits_cons, digitChar_toNat (Nat.mod_lt n (by omega)), pushDec_ge hge]
      congr 1
      omega

theorem decDigits_repr (n : Nat) : decDigits 0 (Nat.repr n).data = n := by
  show decDigits 0 (Nat.toDigits 10 n).asString.data = n
  rw [Nat.toDigits]
  show decDigits 0 (Nat.toDigitsCore 10 (n + 1) n []) = n
  rw [decDigits_toDigitsCore (n + 1) n (by omega) 0 []]
  rw [decDigits_nil, pushDec_zero]

theorem Nat.repr_injective : Function.Injective Nat.repr := by
  intro a b h
  have := congrArg (fun s => decDigits 0 (String.data s)) h
  simpa [decDigits_repr] using this

/-- The handle id minted for counter value `n`: `f"ax-{n}"`. -/
def axId (n : Nat) : String := "ax-" ++ Nat.repr n

theorem axId_injective : Function.Injective axId := by
  intro a b h
  apply Nat.repr_injective
  have hd := congrArg String.data h
  simp only [axId, String.data_append] at hd
  have := List.append_cancel_left hd
  have h2 := congrArg (fun l => String.mk l) this
  simpa using h2

/-- A registered session (`Session` dataclass). -/
structure Session where
  id : String
  app : Option AccNode
  pid : Option Nat
  window : Option AccNode

/-- The process-wide mutable registries of the server: the `sessions`
and `elements` dicts (as association lists where the most recent binding
is first, matching dict lookup after insert), the two counters, plus the
observable process effects: pids of spawned processes and pids that were
actually sent `SIGTERM`. -/
structure SrvState where
  sessions : List (String × Session)
  sessionCounter : Nat
  elements : List (String × AccNode)
  elementCounter : Nat
  spawned : List Nat
  killed : List Nat

/-- `store_element`: bump the counter, mint `ax-<counter>`, insert. -/
def store_element (e : AccNode) (st : SrvState) : String × SrvState :=
  let c := st.elementCounter + 1
  let eid := axId c
  (eid, { st with elementCounter := c, elements := (eid, e) :: st.elements })

/-- `get_element`: `elements.get(element_id)`. -/
def get_element (st : SrvState) (eid : String) : Option AccNode :=
  st.elements.lookup eid

/-- The list comprehension `[store_element(el) for el in found]`. -/
def store_elements : List AccNode → SrvState → (List String × SrvState)
  | [], st => ([], st)
  | e :: rest, st =>
    let p1 := store_element e st
    let p2 := store_elements rest p1.2
    (p1.1 :: p2.1, p2.2)

/-- JSON values occurring in the modelled handlers' responses; `jlist`
is an array of strings (the only array shape these handlers emit). -/
inductive JVal where
  | jnull
  | jbool (b : Bool)
  | jint (n : Int)
  | jstr (s : String)
  | jlist (xs : List String)
deriving DecidableEq, Repr

/-- A JSON-object response: the dict literal a handler returns. -/
abbrev Resp := List (String × JVal)

def errResp (msg : String) : Resp := [("error", .jstr msg)]

def successResp : Resp := [("success", .jbool true)]

/-- Python truthiness of an optional string (`if parent_id:`). -/
def pyTruthyStr : Option String → Bool
  | none => false
  | some s => !(s == "")

/-- Python `a or b` where `a`, `b` are optional node references. -/
def pyOrNode (a b : Option AccNode) : Option AccNode :=
  match a with
  | some x => some x
  | none => b

/-- Payload of `findElement` / `findElements`. -/
structure FindData where
  strategy : Option String
  value : String
  parentId : Option String

/-- The root-resolution prologue of `handle_find_element`:
`root = session.window or session.app`, then overridden by a truthy,
resolvable `parentId`. -/
def searchRootOf (sess : Session) (d : FindData) (st : SrvState) : Option AccNode :=
  let root0 := pyOrNode sess.window sess.app
  match d.parentId with
  | some p => if p = "" then root0 else pyOrNode (get_element st p) root0
  | none => root0

/-- `handle_find_element`: resolve the search root (explicit parent
handle if supplied and resolvable, else window, else app), dispatch on
the strategy, store a found node and answer its id, else answer a null
`elementId`.  No `try` in the source: a raising traversal propagates. -/
def handle_find_element (desktop : List (Option AccNode)) (sess : Session)
    (d : FindData) (st : SrvState) : Except String (Resp × SrvState) :=
  match searchRootOf sess d st with
  | none => .ok (errResp "No root element", st)
  | some r =>
    (match d.strategy with
     | some "role" => find_element_by_role r d.value
     | some "name" => find_element_by_name r d.value
     | some "description" => find_element_by_description r d.value
     | some "application" => .ok (find_app_by_name desktop d.value)
     | _ => .ok none).bind (fun element =>
      match element with
      | some e =>
        let p := store_element e st
        .ok ([("elementId", .jstr p.1)], p.2)
      | none => .ok ([("elementId", .jnull)], st))

/-- `handle_find_elements`: role strategy only; every found node is
stored, and the response lists the freshly minted ids. -/
def handle_find_elements (sess : Session) (d : FindData) (st : SrvState) :
    Except String (Resp × SrvState) :=
  match pyOrNode sess.window sess.app with
  | none => .ok ([("elements", .jlist [])], st)
  | some r =>
    (match d.strategy with
     | some "role" => find_elements_by_role r d.value
     | _ => .ok []).bind (fun found =>
      let p := store_elements found st
      .ok ([("elements", .jlist p.1)], p.2))

/-- Result of `click_element`: the returned boolean, which action index
(if any) was invoked through `do_action`, and the synthesized mouse
events (`generate_mouse_event` calls) as `(x, y, chord)` triples. -/
structure ClickRes where
  success : Bool
  invoked : Option Nat
  events : List (Int × Int × String)
deriving DecidableEq, Repr

/-- The action-scan loop of `click_element`: first action whose name is
`click`, `activate` or `press`, returned with its index and the outcome
of `do_action(i)`. -/
def firstClickAction : List (String × Bool) → Nat → Option (Nat × Bool)
  | [], _ => none
  | a :: rest, i =>
    if a.1 = "click" ∨ a.1 = "activate" ∨ a.1 = "press" then some (i, a.2)
    else firstClickAction rest (i + 1)

/-- The component fallback of `click_element`: a primary-button click at
the screen centre `(pos.x + size.x // 2, pos.y + size.y // 2)` (Python
`//` is floor division, hence `Int.fdiv`).  A missing component
interface yields `False`; a raising component access is caught by the
surrounding `try` and also yields `False`. -/
def clickFallback (e : AccNode) : ClickRes :=
  match e.componentOf with
  | .ok (some c) =>
    ⟨true, none, [(c.px + Int.fdiv c.sx 2, c.py + Int.fdiv c.sy 2, "b1c")]⟩
  | .ok none => ⟨false, none, []⟩
  | .error _ => ⟨false, none, []⟩

/-- `click_element`: prefer the action interface (first matching action
name wins, its boolean is returned directly — no fallback after a
`False` from `do_action`), else the synthetic pointer click. -/
def click_element (e : AccNode) : ClickRes :=
  match e.actionsOf with
  | some acts =>
    match firstClickAction acts 0 with
    | some ib => ⟨ib.2, some ib.1, []⟩
    | none => clickFallback e
  | none => clickFallback e

/-- `handle_click`: resolve the handle, click, report success or the
operation error `Click failed`. -/
def handle_click (st : SrvState) (elementId : String) : Resp :=
  match get_element st elementId with
  | none => errResp "Element not found"
  | some e => if (click_element e).success then successResp else errResp "Click failed"

/-- `handle_get_bounds`: resolve the handle; a raising component access
is caught and answered as `{error: str(e)}`; a missing component
interface falls through to the all-zero rectangle. -/
def handle_get_bounds (st : SrvState) (elementId : String) : Resp :=
  match get_element st elementId with
  | none => errResp "Element not found"
  | some e =>
    match e.componentOf with
    | .error msg => errResp msg
    | .ok (some c) =>
      [("x", .jint c.px), ("y", .jint c.py), ("width", .jint c.sx), ("height", .jint c.sy)]
    | .ok none =>
      [("x", .jint 0), ("y", .jint 0), ("width", .jint 0), ("height", .jint 0)]

/-- `handle_close`: best-effort `os.kill(pid, SIGTERM)` — attempted only
for a truthy pid, and its failure (`killOk = false`) is swallowed — then
unconditionally delete the session and report success. -/
def handle_close (killOk : Bool) (sess : Session) (st : SrvState) : Resp × SrvState :=
  let killed :=
    match sess.pid with
    | some p => if p ≠ 0 ∧ killOk then p :: st.killed else st.killed
    | none => st.killed
  (successResp,
   { st with killed := killed,
             sessions := st.sessions.filter (fun q => q.1 != sess.id) })

/-- The session-resolution step of `handle_command` followed by the
`close` dispatch: an unregistered session id is answered with
`Session not found` and no state change. -/
def dispatchClose (killOk : Bool) (st : SrvState) (sid : String) : Resp × SrvState :=
  match st.sessions.lookup sid with
  | none => (errResp "Session not found", st)
  | some s => handle_close killOk s st

/-- Payload of `launch`. -/
structure LaunchData where
  desktopFile : Option String
  executable : Option String
  args : List String
  workingDir : Option String

/-- `range(50)` in the launch polling loop. -/
def launchPollIterations : Nat := 50

/-- `time.sleep(0.1)` between polls, in milliseconds. -/
def launchPollSleepMs : Nat := 100

/-- `handle_launch`: spawn (recorded in `spawned`; `pid` is the id the
spawn produced, `desktopAt k` the desktop tree seen by the k-th poll),
poll `find_app_by_pid` up to 50 times, and only on success bump the
session counter and register the session.  The timeout path returns the
error without touching sessions, the counter, or the process. -/
def handle_launch (st : SrvState) (d : LaunchData) (pid : Nat)
    (desktopAt : Nat → List (Option AccNode)) : Resp × SrvState :=
  if !(pyTruthyStr d.desktopFile) && !(pyTruthyStr d.executable) then
    (errResp "Missing desktopFile or executable", st)
  else
    let st1 := { st with spawned := pid :: st.spawned }
    match (List.range launchPollIterations).findSome?
        (fun k => find_app_by_pid (desktopAt k) pid) with
    | none => (errResp "App not found in AT-SPI tree", st1)
    | some app =>
      let c := st1.sessionCounter + 1
      let sid := "session-" ++ Nat.repr c
      match find_window app none with
      | .error e => (errResp e, { st1 with sessionCounter := c })
      | .ok w =>
        ([("sessionId", .jstr sid), ("pid", .jint pid), ("success", .jbool true)],
         { st1 with sessionCounter := c,
                    sessions := (sid, ⟨sid, some app, some pid, w⟩) :: st1.sessions })

mutual

/-- All nodes of a subtree in traversal (pre-)order: the node itself,
then the nodes under each present child, left to right. -/
def allNodes : AccNode → List AccNode
  | .mk r n d p cc cs a comp => .mk r n d p cc cs a comp :: allNodesList cs

def allNodesList : List (Option AccNode) → List AccNode
  | [] => []
  | none :: rest => allNodesList rest
  | some c :: rest => allNodes c ++ allNodesList rest

end

mutual

/-- Every `get_child_count` read in the subtree succeeds: the condition
under which a full traversal of the subtree cannot raise. -/
def wfTree : AccNode → Bool
  | .mk _ _ _ _ cc cs _ _ => cc && wfList cs

def wfList : List (Option AccNode) → Bool
  | [] => true
  | none :: rest => wfList rest
  | some c :: rest => wfTree c && wfList rest

end

theorem self_mem_allNodes (t : AccNode) : t ∈ allNodes t := by
  cases t
  rw [allNodes]
  exact List.mem_cons_self _ _

theorem mem_allNodesList_of_mem {cs : List (Option AccNode)} {c : Option AccNode}
    {x nd : AccNode} (hc : c ∈ cs) (hx : c = some x) (hn : nd ∈ allNodes x) :
    nd ∈ allNodesList cs := by
  induction cs with
  | nil => cases hc
  | cons a rest ih =>
    rcases List.mem_cons.1 hc with h | h
    · subst h
      subst hx
      rw [allNodesList]
      exact List.mem_append_left _ hn
    · cases a with
      | none => rw [allNodesList]; exact ih h
      | some c' => rw [allNodesList]; exact List.mem_append_right _ (ih h)

theorem mem_allNodesList_elim {cs : List (Option AccNode)} {nd : AccNode}
    (h : nd ∈ allNodesList cs) :
    ∃ c ∈ cs, ∃ x, c = some x ∧ nd ∈ allNodes x := by
  induction cs with
  | nil => rw [allNodesList] at h; cases h
  | cons a rest ih =>
    cases a with
    | none =>
      rw [allNodesList] at h
      obtain ⟨c, hc, hx⟩ := ih h
      exact ⟨c, List.mem_cons_of_mem _ hc, hx⟩
    | some c' =>
      rw [allNodesList] at h
      rcases List.mem_append.1 h with h | h
      · exact ⟨some c', List.mem_cons_self _ _, c', rfl, h⟩
      · obtain ⟨c, hc, hx⟩ := ih h
        exact ⟨c, List.mem_cons_of_mem _ hc, hx⟩

theorem wfTree_parts {r : Role} {n d : Option String} {p : Option Nat} {cc : Bool}
    {cs : List (Option AccNode)} {a : Option (List (String × Bool))}
    {comp : Except String (Option CompIface)}
    (h : wfTree (.mk r n d p cc cs a comp) = true) : cc = true ∧ wfList cs = true := by
  rw [wfTree] at h
  simpa using h

theorem wfList_mem {cs : List (Option AccNode)} {c : Option AccNode} {x : AccNode}
    (h : wfList cs = true) (hc : c ∈ cs) (hx : c = some x) : wfTree x = true := by
  induction cs with
  | nil => cases hc
  | cons a rest ih =>
    rcases List.mem_cons.1 hc with h1 | h1
    · subst h1
      subst hx
      rw [wfList, Bool.and_eq_true] at h
      exact h.1
    · cases a with
      | none => rw [wfList] at h; exact ih h h1
      | some c' =>
        rw [wfList, Bool.and_eq_true] at h
        exact ih h.2 h1

theorem searchRoleList_none {t : Role} {cs : List (Option AccNode)}
    (h : ∀ c ∈ cs, ∀ x, c = some x → searchRole t x = .ok none) :
    searchRoleList t cs = .ok none := by
  induction cs with
  | nil => rw [searchRoleList]
  | cons a rest ih =>
    cases a with
    | none =>
      rw [searchRoleList]
      exact ih fun c hc x hx => h c (List.mem_cons_of_mem _ hc) x hx
    | some c =>
      rw [searchRoleList, h (some c) (List.mem_cons_self _ _) c rfl]
      show searchRoleList t rest = .ok none
      exact ih fun c' hc x hx => h c' (List.mem_cons_of_mem _ hc) x hx

/-- If no node of a (fully readable) subtree has the target role, the
depth-first search reports "no match" rather than an error. -/
theorem searchRole_none {t : Role} :
    ∀ nd, wfTree nd = true → (∀ n ∈ allNodes nd, n.roleOf ≠ t) →
      searchRole t nd = .ok none := by
  apply AccNode.ind
    (P := fun nd => wfTree nd = true → (∀ n ∈ allNodes nd, n.roleOf ≠ t) →
      searchRole t nd = .ok none)
  intro nd IH hwf hnm
  cases nd with
  | mk r n d p cc cs a comp =>
    have hr : r ≠ t := by
      have := hnm _ (self_mem_allNodes (.mk r n d p cc cs a comp))
      simpa [AccNode.roleOf] using this
    obtain ⟨hcc, hwl⟩ := wfTree_parts hwf
    rw [searchRole, if_neg hr, hcc, if_pos rfl]
    apply searchRoleList_none
    intro c hc x hx
    have hc' : c ∈ (AccNode.mk r n d p cc cs a comp).childrenOf := by
      simpa [AccNode.childrenOf] using hc
    apply IH c hc' x hx (wfList_mem hwl hc hx)
    intro m hm
    apply hnm
    rw [allNodes]
    exact List.mem_cons_of_mem _ (mem_allNodesList_of_mem hc hx hm)

theorem exbind_ok {α β : Type} (a : α) (f : α → Except String β) :
    ((Except.ok a : Except String α) >>= f) = f a := rfl

theorem exbind_err {α β : Type} (e : String) (f : α → Except String β) :
    ((Except.error e : Except String α) >>= f) = .error e := rfl

theorem exbindm_ok {α β : Type} (a : α) (f : α → Except String β) :
    (Except.ok a : Except String α).bind f = f a := rfl

theorem exbindm_err {α β : Type} (e : String) (f : α → Except String β) :
    (Except.error e : Except String α).bind f = .error e := rfl

theorem searchRoleList_ok {t : Role} {cs : List (Option AccNode)}
    (h : ∀ c ∈ cs, ∀ x, c = some x → ∃ v, searchRole t x = .ok v) :
    ∃ v, searchRoleList t cs = .ok v := by
  induction cs with
  | nil => exact ⟨none, by rw [searchRoleList]⟩
  | cons a rest ih =>
    cases a with
    | none =>
      obtain ⟨v, hv⟩ := ih fun c hc x hx => h c (List.mem_cons_of_mem _ hc) x hx
      exact ⟨v, by rw [searchRoleList]; exact hv⟩
    | some c =>
      obtain ⟨v, hv⟩ := h (some c) (List.mem_cons_self _ _) c rfl
      cases v with
      | some x => exact ⟨some x, by rw [searchRoleList, hv, exbind_ok]⟩
      | none =>
        obtain ⟨w, hw⟩ := ih fun c' hc x hx => h c' (List.mem_cons_of_mem _ hc) x hx
        exact ⟨w, by rw [searchRoleList, hv, exbind_ok]; exact hw⟩

/-- On a fully readable subtree the role search always returns a normal
result (found or not found), never an error. -/
theorem searchRole_ok {t : Role} :
    ∀ nd, wfTree nd = true → ∃ v, searchRole t nd = .ok v := by
  apply AccNode.ind (P := fun nd => wfTree nd = true → ∃ v, searchRole t nd = .ok v)
  intro nd IH hwf
  cases nd with
  | mk r n d p cc cs a comp =>
    obtain ⟨hcc, hwl⟩ := wfTree_parts hwf
    by_cases hr : r = t
    · exact ⟨some (.mk r n d p cc cs a comp), by rw [searchRole, if_pos hr]⟩
    · obtain ⟨v, hv⟩ := @searchRoleList_ok t cs (fun c hc x hx =>
        IH c (by simpa [AccNode.childrenOf] using hc) x hx (wfList_mem hwl hc hx))
      exact ⟨v, by rw [searchRole, if_neg hr, hcc, if_pos rfl]; exact hv⟩

theorem searchRoleList_sound {t : Role} {cs : List (Option AccNode)} {x : AccNode}
    (IH : ∀ c ∈ cs, ∀ y, c = some y → ∀ z, searchRole t y = .ok (some z) → z.roleOf = t)
    (h : searchRoleList t cs = .ok (some x)) : x.roleOf = t := by
  induction cs with
  | nil => rw [searchRoleList] at h; simp at h
  | cons a rest ih =>
    cases a with
    | none =>
      rw [searchRoleList] at h
      exact ih (fun c hc y hy => IH c (List.mem_cons_of_mem _ hc) y hy) h
    | some c =>
      rw [searchRoleList] at h
      cases hsr : searchRole t c with
      | error e => rw [hsr, exbind_err] at h; simp at h
      | ok v =>
        rw [hsr, exbind_ok] at h
        cases v with
        | some y =>
          have hxy : y = x := by simpa using h
          exact hxy ▸ IH (some c) (List.mem_cons_self _ _) c rfl y hsr
        | none =>
          exact ih (fun c' hc y hy => IH c' (List.mem_cons_of_mem _ hc) y hy) h

/-- The role search only ever returns nodes that carry the target role. -/
theorem searchRole_sound {t : Role} :
    ∀ nd, ∀ x, searchRole t nd = .ok (some x) → x.roleOf = t := by
  apply AccNode.ind (P := fun nd => ∀ x, searchRole t nd = .ok (some x) → x.roleOf = t)
  intro nd IH x h
  cases nd with
  | mk r n d p cc cs a comp =>
    rw [searchRole] at h
    by_cases hr : r = t
    · rw [if_pos hr] at h
      have : AccNode.mk r n d p cc cs a comp = x := by simpa using h
      subst this
      simpa [AccNode.roleOf] using hr
    · rw [if_neg hr] at h
      cases hcc : cc with
      | false => rw [hcc] at h; simp at h
      | true =>
        rw [hcc, if_pos rfl] at h
        exact searchRoleList_sound
          (fun c hc y hy z hz => IH c (by simpa [AccNode.childrenOf] using hc) y hy z hz) h

theorem searchRoleList_complete {t : Role} {cs : List (Option AccNode)}
    (IH : ∀ c ∈ cs, ∀ y, c = some y →
      (searchRole t y = .ok none → ∀ n ∈ allNodes y, n.roleOf ≠ t))
    (h : searchRoleList t cs = .ok none) :
    ∀ n ∈ allNodesList cs, n.roleOf ≠ t := by
  induction cs with
  | nil => intro n hn; rw [allNodesList] at hn; cases hn
  | cons a rest ih =>
    cases a with
    | none =>
      rw [searchRoleList] at h
      rw [allNodesList]
      exact ih (fun c hc y hy => IH c (List.mem_cons_of_mem _ hc) y hy) h
    | some c =>
      rw [searchRoleList] at h
      cases hsr : searchRole t c with
      | error e => rw [hsr, exbind_err] at h; simp at h
      | ok v =>
        rw [hsr, exbind_ok] at h
        cases v with
        | some y => simp at h
        | none =>
          intro n hn
          rw [allNodesList] at hn
          rcases List.mem_append.1 hn with hn | hn
          · exact IH (some c) (List.mem_cons_self _ _) c rfl hsr n hn
          · exact ih (fun c' hc y hy => IH c' (List.mem_cons_of_mem _ hc) y hy) h n hn

/-- If the role search reports "no match", no node of the subtree has
the target role. -/
theorem searchRole_complete {t : Role} :
    ∀ nd, searchRole t nd = .ok none → ∀ n ∈ allNodes nd, n.roleOf ≠ t := by
  apply AccNode.ind
    (P := fun nd => searchRole t nd = .ok none → ∀ n ∈ allNodes nd, n.roleOf ≠ t)
  intro nd IH h n hn
  cases nd with
  | mk r n' d p cc cs a comp =>
    rw [searchRole] at h
    by_cases hr : r = t
    · rw [if_pos hr] at h; simp at h
    · rw [if_neg hr] at h
      cases hcc : cc with
      | false => rw [hcc] at h; simp at h
      | true =>
        rw [hcc, if_pos rfl] at h
        rw [allNodes] at hn
        rcases List.mem_cons.1 hn with hn | hn
        · subst hn; simpa [AccNode.roleOf] using hr
        · exact searchRoleList_complete
            (fun c hc y hy => IH c (by simpa [AccNode.childrenOf] using hc) y hy) h n hn

/-- On a fully readable subtree containing a node of the target role,
the role search returns some node of that role. -/
theorem searchRole_finds {t : Role} {nd : AccNode} (hwf : wfTree nd = true)
    (hex : ∃ n ∈ allNodes nd, n.roleOf = t) :
    ∃ x, searchRole t nd = .ok (some x) ∧ x.roleOf = t := by
  obtain ⟨v, hv⟩ := searchRole_ok nd hwf
  cases v with
  | some x => exact ⟨x, hv, searchRole_sound nd x hv⟩
  | none =>
    obtain ⟨n, hn, hrole⟩ := hex
    exact absurd hrole (searchRole_complete nd hv n hn)

theorem searchNameList_none {nm : String} {cs : List (Option AccNode)}
    (h : ∀ c ∈ cs, ∀ x, c = some x → searchName nm x = .ok none) :
    searchNameList nm cs = .ok none := by
  induction cs with
  | nil => rw [searchNameList]
  | cons a rest ih =>
    cases a with
    | none =>
      rw [searchNameList]
      exact ih fun c hc x hx => h c (List.mem_cons_of_mem _ hc) x hx
    | some c =>
      rw [searchNameList, h (some c) (List.mem_cons_self _ _) c rfl, exbind_ok]
      exact ih fun c' hc x hx => h c' (List.mem_cons_of_mem _ hc) x hx

/-- If no node name of a readable subtree contains the needle, the name
search reports "no match" rather than an error. -/
theorem searchName_none {nm : String} :
    ∀ nd, wfTree nd = true →
      (∀ n ∈ allNodes nd, strIn (pyLower nm) (pyLower (orEmpty n.nameOf)) = false) →
      searchName nm nd = .ok none := by
  apply AccNode.ind (P := fun nd => wfTree nd = true →
    (∀ n ∈ allNodes nd, strIn (pyLower nm) (pyLower (orEmpty n.nameOf)) = false) →
    searchName nm nd = .ok none)
  intro nd IH hwf hnm
  cases nd with
  | mk r n d p cc cs a comp =>
    have hmiss : ¬ (strIn (pyLower nm) (pyLower (orEmpty n)) = true) := by
      have := hnm _ (self_mem_allNodes (.mk r n d p cc cs a comp))
      simp [AccNode.nameOf] at this
      simp [this]
    obtain ⟨hcc, hwl⟩ := wfTree_parts hwf
    rw [searchName, if_neg hmiss, hcc, if_pos rfl]
    apply searchNameList_none
    intro c hc x hx
    apply IH c (by simpa [AccNode.childrenOf] using hc) x hx (wfList_mem hwl hc hx)
    intro m hm
    apply hnm
    rw [allNodes]
    exact List.mem_cons_of_mem _ (mem_allNodesList_of_mem hc hx hm)

theorem searchNameList_ok {nm : String} {cs : List (Option AccNode)}
    (h : ∀ c ∈ cs, ∀ x, c = some x → ∃ v, searchName nm x = .ok v) :
    ∃ v, searchNameList nm cs = .ok v := by
  induction cs with
  | nil => exact ⟨none, by rw [searchNameList]⟩
  | cons a rest ih =>
    cases a with
    | none =>
      obtain ⟨v, hv⟩ := ih fun c hc x hx => h c (List.mem_cons_of_mem _ hc) x hx
      exact ⟨v, by rw [searchNameList]; exact hv⟩
    | some c =>
      obtain ⟨v, hv⟩ := h (some c) (List.mem_cons_self _ _) c rfl
      cases v with
      | some x => exact ⟨some x, by rw [searchNameList, hv, exbind_ok]⟩
      | none =>
        obtain ⟨w, hw⟩ := ih fun c' hc x hx => h c' (List.mem_cons_of_mem _ hc) x hx
        exact ⟨w, by rw [searchNameList, hv, exbind_ok]; exact hw⟩

/-- On a fully readable subtree the name search never errors. -/
theorem searchName_ok {nm : String} :
    ∀ nd, wfTree nd = true → ∃ v, searchName nm nd = .ok v := by
  apply AccNode.ind (P := fun nd => wfTree nd = true → ∃ v, searchName nm nd = .ok v)
  intro nd IH hwf
  cases nd with
  | mk r n d p cc cs a comp =>
    obtain ⟨hcc, hwl⟩ := wfTree_parts hwf
    by_cases hm : strIn (pyLower nm) (pyLower (orEmpty n)) = true
    · exact ⟨some (.mk r n d p cc cs a comp), by rw [searchName, if_pos hm]⟩
    · obtain ⟨v, hv⟩ := @searchNameList_ok nm cs (fun c hc x hx =>
        IH c (by simpa [AccNode.childrenOf] using hc) x hx (wfList_mem hwl hc hx))
      exact ⟨v, by rw [searchName, if_neg hm, hcc, if_pos rfl]; exact hv⟩

theorem searchDescrList_none {ds : String} {cs : List (Option AccNode)}
    (h : ∀ c ∈ cs, ∀ x, c = some x → searchDescr ds x = .ok none) :
    searchDescrList ds cs = .ok none := by
  induction cs with
  | nil => rw [searchDescrList]
  | cons a rest ih =>
    cases a with
    | none =>
      rw [searchDescrList]
      exact ih fun c hc x hx => h c (List.mem_cons_of_mem _ hc) x hx
    | some c =>
      rw [searchDescrList, h (some c) (List.mem_cons_self _ _) c rfl, exbind_ok]
      exact ih fun c' hc x hx => h c' (List.mem_cons_of_mem _ hc) x hx

/-- If no node description of a readable subtree contains the needle,
the description search reports "no match" rather than an error. -/
theorem searchDescr_none {ds : String} :
    ∀ nd, wfTree nd = true →
      (∀ n ∈ allNodes nd, strIn (pyLower ds) (pyLower (orEmpty n.descrOf)) = false) →
      searchDescr ds nd = .ok none := by
  apply AccNode.ind (P := fun nd => wfTree nd = true →
    (∀ n ∈ allNodes nd, strIn (pyLower ds) (pyLower (orEmpty n.descrOf)) = false) →
    searchDescr ds nd = .ok none)
  intro nd IH hwf hnm
  cases nd with
  | mk r n d p cc cs a comp =>
    have hmiss : ¬ (strIn (pyLower ds) (pyLower (orEmpty d)) = true) := by
      have := hnm _ (self_mem_allNodes (.mk r n d p cc cs a comp))
      simp [AccNode.descrOf] at this
      simp [this]
    obtain ⟨hcc, hwl⟩ := wfTree_parts hwf
    rw [searchDescr, if_neg hmiss, hcc, if_pos rfl]
    apply searchDescrList_none
    intro c hc x hx
    apply IH c (by simpa [AccNode.childrenOf] using hc) x hx (wfList_mem hwl hc hx)
    intro m hm
    apply hnm
    rw [allNodes]
    exact List.mem_cons_of_mem _ (mem_allNodesList_of_mem hc hx hm)

theorem searchDescrList_ok {ds : String} {cs : List (Option AccNode)}
    (h : ∀ c ∈ cs, ∀ x, c = some x → ∃ v, searchDescr ds x = .ok v) :
    ∃ v, searchDescrList ds cs = .ok v := by
  induction cs with
  | nil => exact ⟨none, by rw [searchDescrList]⟩
  | cons a rest ih =>
    cases a with
    | none =>
      obtain ⟨v, hv⟩ := ih fun c hc x hx => h c (List.mem_cons_of_mem _ hc) x hx
      exact ⟨v, by rw [searchDescrList]; exact hv⟩
    | some c =>
      obtain ⟨v, hv⟩ := h (some c) (List.mem_cons_self _ _) c rfl
      cases v with
      | some x => exact ⟨some x, by rw [searchDescrList, hv, exbind_ok]⟩
      | none =>
        obtain ⟨w, hw⟩ := ih fun c' hc x hx => h c' (List.mem_cons_of_mem _ hc) x hx
        exact ⟨w, by rw [searchDescrList, hv, exbind_ok]; exact hw⟩

/-- On a fully readable subtree the description search never errors. -/
theorem searchDescr_ok {ds : String} :
    ∀ nd, wfTree nd = true → ∃ v, searchDescr ds nd = .ok v := by
  apply AccNode.ind (P := fun nd => wfTree nd = true → ∃ v, searchDescr ds nd = .ok v)
  intro nd IH hwf
  cases nd with
  | mk r n d p cc cs a comp =>
    obtain ⟨hcc, hwl⟩ := wfTree_parts hwf
    by_cases hm : strIn (pyLower ds) (pyLower (orEmpty d)) = true
    · exact ⟨some (.mk r n d p cc cs a comp), by rw [searchDescr, if_pos hm]⟩
    · obtain ⟨v, hv⟩ := @searchDescrList_ok ds cs (fun c hc x hx =>
        IH c (by simpa [AccNode.childrenOf] using hc) x hx (wfList_mem hwl hc hx))
      exact ⟨v, by rw [searchDescr, if_neg hm, hcc, if_pos rfl]; exact hv⟩

theorem collectRoleList_ok {t : Role} {cs : List (Option AccNode)}
    (h : ∀ c ∈ cs, ∀ x, c = some x → ∃ v, collectRole t x = .ok v) :
    ∃ v, collectRoleList t cs = .ok v := by
  induction cs with
  | nil => exact ⟨[], by rw [collectRoleList]⟩
  | cons a rest ih =>
    cases a with
    | none =>
      obtain ⟨v, hv⟩ := ih fun c hc x hx => h c (List.mem_cons_of_mem _ hc) x hx
      exact ⟨v, by rw [collectRoleList]; exact hv⟩
    | some c =>
      obtain ⟨v, hv⟩ := h (some c) (List.mem_cons_self _ _) c rfl
      obtain ⟨w, hw⟩ := ih fun c' hc x hx => h c' (List.mem_cons_of_mem _ hc) x hx
      exact ⟨v ++ w, by rw [collectRoleList, hv, exbind_ok, hw, exbind_ok]⟩

/-- On a fully readable subtree the collecting role search never
errors. -/
theorem collectRole_ok {t : Role} :
    ∀ nd, wfTree nd = true → ∃ v, collectRole t nd = .ok v := by
  apply AccNode.ind (P := fun nd => wfTree nd = true → ∃ v, collectRole t nd = .ok v)
  intro nd IH hwf
  cases nd with
  | mk r n d p cc cs a comp =>
    obtain ⟨hcc, hwl⟩ := wfTree_parts hwf
    obtain ⟨v, hv⟩ := @collectRoleList_ok t cs (fun c hc x hx =>
      IH c (by simpa [AccNode.childrenOf] using hc) x hx (wfList_mem hwl hc hx))
    refine ⟨(if r = t then [.mk r n d p cc cs a comp] else []) ++ v, ?_⟩
    rw [collectRole, hcc, hv]
    simp only [eq_self_iff_true, if_true]
    rfl

theorem find_app_by_name_none {v : String} :
    ∀ desktop : List (Option AccNode),
      (∀ a ∈ desktop, ∀ x, a = some x →
        strIn (pyLower v) (pyLower (orEmpty x.nameOf)) = false) →
      find_app_by_name desktop v = none := by
  intro desktop
  induction desktop with
  | nil => intro _; rw [find_app_by_name]
  | cons a rest ih =>
    intro h
    cases a with
    | none =>
      rw [find_app_by_name]
      exact ih fun a' ha x hx => h a' (List.mem_cons_of_mem _ ha) x hx
    | some app =>
      have hm : ¬ (strIn (pyLower v) (pyLower (orEmpty app.nameOf)) = true) := by
        simp [h (some app) (List.mem_cons_self _ _) app rfl]
      rw [find_app_by_name, if_neg hm]
      exact ih fun a' ha x hx => h a' (List.mem_cons_of_mem _ ha) x hx

theorem store_element_fst (e : AccNode) (st : SrvState) :
    (store_element e st).1 = axId (st.elementCounter + 1) := rfl

theorem store_element_counter (e : AccNode) (st : SrvState) :
    (store_element e st).2.elementCounter = st.elementCounter + 1 := rfl

theorem store_element_elements (e : AccNode) (st : SrvState) :
    (store_element e st).2.elements =
      (axId (st.elementCounter + 1), e) :: st.elements := rfl

/-- Invariant of the element registry: every key was minted from a
counter value no greater than the current one. -/
def elemInv (st : SrvState) : Prop :=
  ∀ q ∈ st.elements, ∃ j ∈ List.range (st.elementCounter + 1), q.1 = axId j

theorem elemInv_store {st : SrvState} (e : AccNode) (h : elemInv st) :
    elemInv (store_element e st).2 := by
  intro q hq
  rw [store_element_elements] at hq
  rcases List.mem_cons.1 hq with hq | hq
  · exact ⟨st.elementCounter + 1,
      by rw [store_element_counter]; simp [List.mem_range], by rw [hq]⟩
  · obtain ⟨j, hj, hk⟩ := h q hq
    simp only [List.mem_range] at hj
    exact ⟨j, by rw [store_element_counter]; simp only [List.mem_range]; omega, hk⟩

theorem lookup_none_of_no_key {l : List (String × AccNode)} {k : String}
    (h : ∀ q ∈ l, q.1 ≠ k) : l.lookup k = none := by
  induction l with
  | nil => rfl
  | cons q rest ih =>
    have hne : (k == q.1) = false := by
      simp only [beq_eq_false_iff_ne, ne_eq]
      intro hk
      exact h q (List.mem_cons_self _ _) hk.symm
    rw [List.lookup, hne]
    exact ih fun q2 hq => h q2 (List.mem_cons_of_mem _ hq)

theorem get_element_fresh {st : SrvState} {m : Nat} (h : elemInv st)
    (hm : st.elementCounter < m) : get_element st (axId m) = none := by
  apply lookup_none_of_no_key
  intro q hq
  obtain ⟨j, hj, hk⟩ := h q hq
  simp only [List.mem_range] at hj
  rw [hk]
  intro he
  have := axId_injective he
  omega

theorem store_elements_counter (es : List AccNode) :
    ∀ st : SrvState,
      (store_elements es st).2.elementCounter = st.elementCounter + es.length := by
  induction es with
  | nil => intro st; rfl
  | cons e rest ih =>
    intro st
    rw [store_elements, ih (store_element e st).2, store_element_counter]
    simp only [List.length_cons]
    omega

theorem store_elements_fst (es : List AccNode) :
    ∀ st : SrvState,
      (store_elements es st).1 =
        (List.range es.length).map (fun i => axId (st.elementCounter + 1 + i)) := by
  induction es with
  | nil => intro st; rfl
  | cons e rest ih =>
    intro st
    rw [store_elements]
    simp only [List.length_cons, List.range_succ_eq_map, List.map_cons, List.map_map]
    congr 1
    rw [ih (store_element e st).2]
    simp only [store_element_counter]
    apply List.map_congr_left
    intro i _
    simp only [Function.comp_apply]
    congr 1
    omega

theorem store_elements_get_low (es : List AccNode) :
    ∀ st : SrvState, ∀ m, m ≤ st.elementCounter →
      get_element (store_elements es st).2 (axId m) = get_element st (axId m) := by
  induction es with
  | nil => intro st m _; rfl
  | cons e rest ih =>
    intro st m hm
    rw [store_elements,
      ih (store_element e st).2 m (by rw [store_element_counter]; omega)]
    have hne : (axId m == axId (st.elementCounter + 1)) = false := by
      simp only [beq_eq_false_iff_ne, ne_eq]
      intro he
      have := axId_injective he
      omega
    show List.lookup (axId m) (store_element e st).2.elements = _
    rw [store_element_elements, List.lookup, hne]
    rfl

theorem store_elements_resolve (es : List AccNode) :
    ∀ st : SrvState, elemInv st →
      ((store_elements es st).1).map (get_element (store_elements es st).2) =
        es.map some := by
  induction es with
  | nil => intro st _; rfl
  | cons e rest ih =>
    intro st hinv
    rw [store_elements]
    simp only [List.map_cons]
    congr 1
    · rw [store_element_fst,
        store_elements_get_low rest (store_element e st).2 (st.elementCounter + 1)
          (by rw [store_element_counter])]
      show List.lookup (axId (st.elementCounter + 1)) (store_element e st).2.elements
        = some e
      rw [store_element_elements, List.lookup]
      simp
    · exact ih (store_element e st).2 (elemInv_store e hinv)

/-- "No node of the searched tree matches `(strategy, value)`", stated
per strategy over the traversal order of the tree (for `application`,
over the desktop's top-level applications, which that strategy
searches). -/
def strategyNoMatch (desktop : List (Option AccNode)) (r : AccNode)
    (s v : String) : Prop :=
  match s with
  | "role" => ∀ t, roleMapFindOne.lookup (pyLower v) = some t →
      ∀ n ∈ allNodes r, n.roleOf ≠ t
  | "name" => ∀ n ∈ allNodes r, strIn (pyLower v) (pyLower (orEmpty n.nameOf)) = false
  | "description" =>
      ∀ n ∈ allNodes r, strIn (pyLower v) (pyLower (orEmpty n.descrOf)) = false
  | "application" => ∀ a ∈ desktop, ∀ x, a = some x →
      strIn (pyLower v) (pyLower (orEmpty x.nameOf)) = false
  | _ => True

/-- C1 (amended): a `findElement` request on a session whose search
root resolves and whose subtree's child-count reads all succeed
(`wfTree`), with a valid strategy whose value matches no node of the
searched tree, is answered with the response `{elementId: null}` —
carrying no `error` key — and leaves the server state unchanged.
(Without the readable-tree proviso the original claim fails: a failing
child-count read propagates out of the handler instead.) -/
theorem c1_find_element_no_match (desktop : List (Option AccNode)) (sess : Session)
    (d : FindData) (st : SrvState) (r : AccNode) (s : String)
    (hs : d.strategy = some s)
    (hvalid : s = "role" ∨ s = "name" ∨ s = "description" ∨ s = "application")
    (hroot : searchRootOf sess d st = some r)
    (hwf : wfTree r = true)
    (hnm : strategyNoMatch desktop r s d.value) :
    handle_find_element desktop sess d st = .ok ([("elementId", JVal.jnull)], st) := by
  have hfind : (match d.strategy with
     | some "role" => find_element_by_role r d.value
     | some "name" => find_element_by_name r d.value
     | some "description" => find_element_by_description r d.value
     | some "application" => .ok (find_app_by_name desktop d.value)
     | _ => .ok none) = .ok none := by
    rcases hvalid with h | h | h | h <;> subst h <;> rw [hs]
    · show find_element_by_role r d.value = .ok none
      unfold find_element_by_role
      cases hl : roleMapFindOne.lookup (pyLower d.value) with
      | none => rfl
      | some t =>
        have hnm' : ∀ t', roleMapFindOne.lookup (pyLower d.value) = some t' →
            ∀ n ∈ allNodes r, n.roleOf ≠ t' := hnm
        exact searchRole_none r hwf (hnm' t hl)
    · show find_element_by_name r d.value = .ok none
      exact searchName_none r hwf hnm
    · show find_element_by_description r d.value = .ok none
      exact searchDescr_none r hwf hnm
    · show Except.ok (find_app_by_name desktop d.value) = .ok none
      rw [find_app_by_name_none desktop hnm]
  have hstep : handle_find_element desktop sess d st =
      (match d.strategy with
       | some "role" => find_element_by_role r d.value
       | some "name" => find_element_by_name r d.value
       | some "description" => find_element_by_description r d.value
       | some "application" => .ok (find_app_by_name desktop d.value)
       | _ => .ok none).bind (fun element =>
        match element with
        | some e =>
          let p := store_element e st
          .ok ([("elementId", JVal.jstr p.1)], p.2)
        | none => .ok ([("elementId", JVal.jnull)], st)) := by
    unfold handle_find_element
    rw [hroot]
  rw [hstep, hfind, exbindm_ok]

/-- The empty server state at process start. -/
def emptySrv : SrvState := ⟨[], 0, [], 0, [], []⟩

/-- A one-node tree: a label named "hello" with no children. -/
def c1Tree : AccNode := .mk .label (some "hello") none none true [] none (.ok none)

/-- A session whose window resolved to `c1Tree`. -/
def c1Sess : Session := ⟨"session-1", none, none, some c1Tree⟩

/-- Witness for C1 at a concrete request: strategy `role`, value
`button`, against a one-label tree. -/
theorem c1_find_element_no_match_witness :
    (⟨some "role", "button", none⟩ : FindData).strategy = some "role" ∧
    searchRootOf c1Sess ⟨some "role", "button", none⟩ emptySrv = some c1Tree ∧
    wfTree c1Tree = true ∧
    strategyNoMatch [] c1Tree "role" "button" ∧
    handle_find_element [] c1Sess ⟨some "role", "button", none⟩ emptySrv =
      .ok ([("elementId", JVal.jnull)], emptySrv) := by
  have hwf : wfTree c1Tree = true := by simp [c1Tree, wfTree, wfList]
  have hall : allNodes c1Tree = [c1Tree] := by simp [c1Tree, allNodes, allNodesList]
  have hnm : strategyNoMatch [] c1Tree "role" "button" := by
    intro t ht n hn
    have hb : roleMapFindOne.lookup (pyLower "button") = some Role.pushButton := by
      decide
    rw [hb] at ht
    cases ht
    rw [hall] at hn
    simp only [List.mem_singleton] at hn
    subst hn
    simp [c1Tree, AccNode.roleOf]
  exact ⟨rfl, rfl, hwf, hnm,
    c1_find_element_no_match [] c1Sess ⟨some "role", "button", none⟩ emptySrv c1Tree
      "role" rfl (Or.inl rfl) rfl hwf hnm⟩

/-- C10: a `findElement` request whose `parentId` is supplied but absent
from the element registry behaves exactly like the same request without
a `parentId`: the handler silently falls back to the session's window
(or application root); the unknown handle alone never fails the
request. -/
theorem c10_unknown_parent_falls_back (desktop : List (Option AccNode))
    (sess : Session) (d : FindData) (st : SrvState) (p : String)
    (hp : d.parentId = some p) (hmiss : get_element st p = none) :
    handle_find_element desktop sess d st =
      handle_find_element desktop sess ⟨d.strategy, d.value, none⟩ st := by
  have hsome : searchRootOf sess d st =
      (if p = "" then pyOrNode sess.window sess.app
       else pyOrNode (get_element st p) (pyOrNode sess.window sess.app)) := by
    unfold searchRootOf
    rw [hp]
  have hnone : searchRootOf sess ⟨d.strategy, d.value, none⟩ st =
      pyOrNode sess.window sess.app := by
    unfold searchRootOf
    rfl
  have hroot : searchRootOf sess d st =
      searchRootOf sess ⟨d.strategy, d.value, none⟩ st := by
    rw [hsome, hnone]
    by_cases hpe : p = ""
    · rw [if_pos hpe]
    · rw [if_neg hpe, hmiss]
      rfl
  unfold handle_find_element
  rw [hroot]

/-- Witness for C10: parent handle `ax-99` was never minted. -/
theorem c10_unknown_parent_falls_back_witness :
    (⟨some "role", "button", some "ax-99"⟩ : FindData).parentId = some "ax-99" ∧
    get_element emptySrv "ax-99" = none ∧
    handle_find_element [] c1Sess ⟨some "role", "button", some "ax-99"⟩ emptySrv =
      handle_find_element [] c1Sess ⟨some "role", "button", none⟩ emptySrv :=
  ⟨rfl, rfl,
   c10_unknown_parent_falls_back [] c1Sess ⟨some "role", "button", some "ax-99"⟩
     emptySrv "ax-99" rfl rfl⟩

/-- C4: handle ids are fresh for the process lifetime: a batch of
`store_element` calls yields pairwise distinct ids (even for
structurally identical nodes), each call returns `ax-<counter+1>`, and
no later `store_element` (at any state whose counter has reached the
batch's final counter — the counter never decreases) returns an id from
the batch. -/
theorem c4_handle_ids_fresh :
    (∀ (es : List AccNode) (st : SrvState), ((store_elements es st).1).Nodup) ∧
    (∀ (e : AccNode) (st : SrvState),
      (store_element e st).1 = axId (st.elementCounter + 1)) ∧
    (∀ (es : List AccNode) (st stl : SrvState) (e : AccNode),
      (store_elements es st).2.elementCounter ≤ stl.elementCounter →
      (store_element e stl).1 ∉ (store_elements es st).1) := by
  refine ⟨?_, ?_, ?_⟩
  · intro es st
    rw [store_elements_fst]
    refine (List.nodup_range es.length).map ?_
    intro a b hab
    have := axId_injective hab
    omega
  · intro e st
    rfl
  · intro es st stl e hc hmem
    rw [store_element_fst, store_elements_fst] at hmem
    rw [store_elements_counter] at hc
    obtain ⟨i, hi, he⟩ := List.mem_map.1 hmem
    simp only [List.mem_range] at hi
    have := axId_injective he
    omega

/-- Witness for C4: two stores of the same node from the fresh state,
then one more store. -/
theorem c4_handle_ids_fresh_witness :
    ((store_elements [c1Tree, c1Tree] emptySrv).1).Nodup ∧
    (store_element c1Tree emptySrv).1 = axId 1 ∧
    (store_elements [c1Tree, c1Tree] emptySrv).2.elementCounter ≤
      (store_elements [c1Tree, c1Tree] emptySrv).2.elementCounter ∧
    (store_element c1Tree (store_elements [c1Tree, c1Tree] emptySrv).2).1 ∉
      (store_elements [c1Tree, c1Tree] emptySrv).1 :=
  ⟨c4_handle_ids_fresh.1 [c1Tree, c1Tree] emptySrv,
   c4_handle_ids_fresh.2.1 c1Tree emptySrv,
   Nat.le_refl _,
   c4_handle_ids_fresh.2.2 [c1Tree, c1Tree] emptySrv
     (store_elements [c1Tree, c1Tree] emptySrv).2 c1Tree (Nat.le_refl _)⟩

theorem handle_close_resp (killOk : Bool) (s : Session) (st : SrvState) :
    (handle_close killOk s st).1 = successResp := rfl

theorem handle_close_sessions (killOk : Bool) (s : Session) (st : SrvState) :
    (handle_close killOk s st).2.sessions =
      st.sessions.filter (fun q => q.1 != s.id) := rfl

theorem lookup_filter_ne (k : String) (l : List (String × Session)) :
    (l.filter (fun q => q.1 != k)).lookup k = none := by
  induction l with
  | nil => rfl
  | cons q rest ih =>
    rw [List.filter_cons]
    cases hbq : (q.1 != k) with
    | false =>
      simp only [Bool.false_eq_true, if_false]
      exact ih
    | true =>
      simp only [if_true]
      have hk : (k == q.1) = false := by
        simp only [bne_iff_ne, ne_eq] at hbq
        simp only [beq_eq_false_iff_ne, ne_eq]
        exact fun h => hbq h.symm
      rw [List.lookup, hk]
      exact ih

theorem dispatchClose_absent {killOk : Bool} {st : SrvState} {sid : String}
    (h : st.sessions.lookup sid = none) :
    dispatchClose killOk st sid = (errResp "Session not found", st) := by
  unfold dispatchClose
  rw [h]

/-- C5: closing a registered session always reports success and removes
the session record, even when sending the termination signal fails
(`killOk = false`); a second close of the same id is answered with the
error `Session not found` — not a silent no-op — and leaves the state
unchanged. -/
theorem c5_close_always_removes (killOk killOk2 : Bool) (st : SrvState)
    (sid : String) (s : Session)
    (hs : st.sessions.lookup sid = some s) (hid : s.id = sid) :
    (dispatchClose killOk st sid).1 = successResp ∧
    ((dispatchClose killOk st sid).2).sessions.lookup sid = none ∧
    dispatchClose killOk2 (dispatchClose killOk st sid).2 sid =
      (errResp "Session not found", (dispatchClose killOk st sid).2) := by
  have h1 : dispatchClose killOk st sid = handle_close killOk s st := by
    unfold dispatchClose
    rw [hs]
  have h2 : ((dispatchClose killOk st sid).2).sessions.lookup sid = none := by
    rw [h1, handle_close_sessions]
    simp only [hid]
    exact lookup_filter_ne sid st.sessions
  exact ⟨by rw [h1, handle_close_resp], h2, dispatchClose_absent h2⟩

/-- A concrete session for the close scenarios. -/
def c5Sess : Session := ⟨"session-1", none, some 42, none⟩

/-- A server state holding exactly `c5Sess`. -/
def c5St : SrvState := ⟨[("session-1", c5Sess)], 1, [], 0, [42], []⟩

/-- Witness for C5: first close with a failing kill, second close after
it. -/
theorem c5_close_always_removes_witness :
    c5St.sessions.lookup "session-1" = some c5Sess ∧
    c5Sess.id = "session-1" ∧
    ((dispatchClose false c5St "session-1").1 = successResp ∧
     ((dispatchClose false c5St "session-1").2).sessions.lookup "session-1" = none ∧
     dispatchClose true (dispatchClose false c5St "session-1").2 "session-1" =
       (errResp "Session not found", (dispatchClose false c5St "session-1").2)) :=
  ⟨rfl, rfl, c5_close_always_removes false true c5St "session-1" c5Sess rfl rfl⟩

/-- The click action-scan found nothing to invoke: either the node has
no action interface, or no action is named click/activate/press. -/
def noClickAction (e : AccNode) : Prop :=
  match e.actionsOf with
  | none => True
  | some acts => firstClickAction acts 0 = none

theorem click_element_fallback {e : AccNode} (hna : noClickAction e) :
    click_element e = clickFallback e := by
  unfold noClickAction at hna
  cases ha : e.actionsOf with
  | none =>
    unfold click_element
    rw [ha]
  | some acts =>
    rw [ha] at hna
    have hna' : firstClickAction acts 0 = none := hna
    have h1 : click_element e = (match firstClickAction acts 0 with
      | some ib => ⟨ib.2, some ib.1, []⟩
      | none => clickFallback e) := by
      unfold click_element
      rw [ha]
    rw [h1, hna']

theorem handle_click_of_get {st : SrvState} {eid : String} {e : AccNode}
    (he : get_element st eid = some e) :
    handle_click st eid =
      (if (click_element e).success then successResp else errResp "Click failed") := by
  unfold handle_click
  rw [he]

/-- C2: for a click on a resolvable element handle: a first action named
click/activate/press is invoked by its index and its boolean outcome
propagates (`success` or the `Click failed` error); with no matching
action but a component capability, a primary-button pointer event is
synthesized at `(x + width // 2, y + height // 2)` and the handler
reports success — bounds (50,50,100,20) give the point (100,60); when
both paths fail (no component, or a raising component access) the
handler returns the `Click failed` operation error. -/
theorem c2_click_action_then_pointer (st : SrvState) (eid : String) (e : AccNode)
    (he : get_element st eid = some e) :
    (∀ acts i b, e.actionsOf = some acts → firstClickAction acts 0 = some (i, b) →
      click_element e = ⟨b, some i, []⟩ ∧
      handle_click st eid = (if b then successResp else errResp "Click failed")) ∧
    (∀ c : CompIface, noClickAction e → e.componentOf = .ok (some c) →
      click_element e =
        ⟨true, none, [(c.px + Int.fdiv c.sx 2, c.py + Int.fdiv c.sy 2, "b1c")]⟩ ∧
      handle_click st eid = successResp) ∧
    (noClickAction e → e.componentOf = .ok (some ⟨50, 50, 100, 20⟩) →
      (click_element e).events = [((100 : Int), (60 : Int), "b1c")]) ∧
    (noClickAction e →
      (e.componentOf = .ok none ∨ ∃ msg, e.componentOf = .error msg) →
      click_element e = ⟨false, none, []⟩ ∧
      handle_click st eid = errResp "Click failed") := by
  have hcomp2 : ∀ c : CompIface, noClickAction e → e.componentOf = .ok (some c) →
      click_element e =
        ⟨true, none, [(c.px + Int.fdiv c.sx 2, c.py + Int.fdiv c.sy 2, "b1c")]⟩ ∧
      handle_click st eid = successResp := by
    intro c hna hc
    have h1 : click_element e =
        ⟨true, none, [(c.px + Int.fdiv c.sx 2, c.py + Int.fdiv c.sy 2, "b1c")]⟩ := by
      rw [click_element_fallback hna]
      unfold clickFallback
      rw [hc]
    refine ⟨h1, ?_⟩
    rw [handle_click_of_get he, h1]
    rfl
  refine ⟨?_, hcomp2, ?_, ?_⟩
  · intro acts i b ha hf
    have h1 : click_element e = (match firstClickAction acts 0 with
      | some ib => ⟨ib.2, some ib.1, []⟩
      | none => clickFallback e) := by
      unfold click_element
      rw [ha]
    have h2 : click_element e = ⟨b, some i, []⟩ := by rw [h1, hf]
    refine ⟨h2, ?_⟩
    rw [handle_click_of_get he, h2]

  · intro hna hc
    have := (hcomp2 ⟨50, 50, 100, 20⟩ hna hc).1
    rw [this]
    decide
  · intro hna hcf
    have h1 : click_element e = ⟨false, none, []⟩ := by
      rw [click_element_fallback hna]
      unfold clickFallback
      rcases hcf with hcf | ⟨msg, hcf⟩ <;> rw [hcf]
    refine ⟨h1, ?_⟩
    rw [handle_click_of_get he, h1]
    rfl

/-- A button whose action interface exposes no click-like action and
whose bounds are (50,50,100,20). -/
def c2Node : AccNode :=
  .mk .pushButton (some "OK") none none true []
    (some [("expand", true)]) (.ok (some ⟨50, 50, 100, 20⟩))

/-- A registry holding `c2Node` under `ax-1`. -/
def c2St : SrvState := ⟨[], 0, [("ax-1", c2Node)], 1, [], []⟩

/-- Witness for C2: the pointer-fallback scenario of the claim, at the
stated bounds. -/
theorem c2_click_action_then_pointer_witness :
    get_element c2St "ax-1" = some c2Node ∧
    noClickAction c2Node ∧
    c2Node.componentOf = .ok (some ⟨50, 50, 100, 20⟩) ∧
    (click_element c2Node).events = [((100 : Int), (60 : Int), "b1c")] ∧
    handle_click c2St "ax-1" = successResp := by
  have he : get_element c2St "ax-1" = some c2Node := rfl
  have hna : noClickAction c2Node := by
    show firstClickAction [("expand", true)] 0 = none
    decide
  have hc : c2Node.componentOf = .ok (some ⟨50, 50, 100, 20⟩) := rfl
  have hmain := c2_click_action_then_pointer c2St "ax-1" c2Node he
  exact ⟨he, hna, hc, hmain.2.2.1 hna hc, (hmain.2.1 ⟨50, 50, 100, 20⟩ hna hc).2⟩

/-- An element whose component access raises (message "boom"). -/
def c6Node : AccNode := .mk .pushButton none none none true [] none (.error "boom")

/-- A registry holding `c6Node` under `ax-1`. -/
def c6St : SrvState := ⟨[], 0, [("ax-1", c6Node)], 1, [], []⟩

/-- Counterexample to C6 as stated: on a resolvable handle whose bounds
query raises, `handle_get_bounds` answers `{error: "boom"}` — an error
response with no numeric keys — rather than the all-zero rectangle. -/
theorem c6_counterexample :
    get_element c6St "ax-1" = some c6Node ∧
    handle_get_bounds c6St "ax-1" = errResp "boom" ∧
    (handle_get_bounds c6St "ax-1").lookup "x" = none ∧
    (handle_get_bounds c6St "ax-1").lookup "error" = some (.jstr "boom") :=
  ⟨rfl, rfl, rfl, rfl⟩

/-- C6 (amended): for a resolvable handle, `handle_get_bounds` answers
the actual rectangle when the component interface is present, the
all-zero rectangle when the element merely has no component interface,
and — unlike the claim's wording — an `{error: str(e)}` response when
the component access raises. -/
theorem c6_bounds_zero_or_error (st : SrvState) (eid : String) (e : AccNode)
    (he : get_element st eid = some e) :
    (∀ c : CompIface, e.componentOf = .ok (some c) →
      handle_get_bounds st eid =
        [("x", .jint c.px), ("y", .jint c.py),
         ("width", .jint c.sx), ("height", .jint c.sy)]) ∧
    (e.componentOf = .ok none →
      handle_get_bounds st eid =
        [("x", .jint 0), ("y", .jint 0), ("width", .jint 0), ("height", .jint 0)]) ∧
    (∀ msg, e.componentOf = .error msg →
      handle_get_bounds st eid = errResp msg ∧
      (errResp msg).lookup "x" = none) := by
  have hstep : handle_get_bounds st eid = (match e.componentOf with
      | .error msg => errResp msg
      | .ok (some c) =>
        [("x", .jint c.px), ("y", .jint c.py),
         ("width", .jint c.sx), ("height", .jint c.sy)]
      | .ok none =>
        [("x", .jint 0), ("y", .jint 0), ("width", .jint 0), ("height", .jint 0)]) := by
    unfold handle_get_bounds
    rw [he]
  refine ⟨?_, ?_, ?_⟩
  · intro c hc
    rw [hstep, hc]
  · intro hc
    rw [hstep, hc]
  · intro msg hc
    exact ⟨by rw [hstep, hc], rfl⟩

/-- An element with no component interface at all, stored as `ax-2`. -/
def c6NoComp : AccNode := .mk .pushButton none none none true [] none (.ok none)

/-- A registry holding `c6NoComp` under `ax-2`. -/
def c6St2 : SrvState := ⟨[], 0, [("ax-2", c6NoComp)], 2, [], []⟩

/-- Witness for C6 (amended) at both failure shapes: the raising
element of the counterexample state and a component-less element. -/
theorem c6_bounds_zero_or_error_witness :
    get_element c6St "ax-1" = some c6Node ∧
    c6Node.componentOf = .error "boom" ∧
    (handle_get_bounds c6St "ax-1" = errResp "boom" ∧
     (errResp "boom").lookup "x" = none) ∧
    get_element c6St2 "ax-2" = some c6NoComp ∧
    c6NoComp.componentOf = .ok none ∧
    handle_get_bounds c6St2 "ax-2" =
      [("x", .jint 0), ("y", .jint 0), ("width", .jint 0), ("height", .jint 0)] :=
  ⟨rfl, rfl,
   (c6_bounds_zero_or_error c6St "ax-1" c6Node rfl).2.2 "boom" rfl,
   rfl, rfl,
   (c6_bounds_zero_or_error c6St2 "ax-2" c6NoComp rfl).2.1 rfl⟩

/-- C3: a launch whose spawned process never shows up in any of the 50
polls (100 ms apart — the 5-second deadline) is answered with the error
`App not found in AT-SPI tree`; no session is registered, the session
counter is untouched, nothing is killed, and the spawned process is
recorded as started. -/
theorem c3_launch_timeout (st : SrvState) (d : LaunchData) (pid : Nat)
    (desktopAt : Nat → List (Option AccNode))
    (hspawn : pyTruthyStr d.desktopFile = true ∨ pyTruthyStr d.executable = true)
    (hnone : ∀ k < launchPollIterations, find_app_by_pid (desktopAt k) pid = none) :
    handle_launch st d pid desktopAt =
      (errResp "App not found in AT-SPI tree",
       { st with spawned := pid :: st.spawned }) ∧
    (handle_launch st d pid desktopAt).2.sessions = st.sessions ∧
    (handle_launch st d pid desktopAt).2.sessionCounter = st.sessionCounter ∧
    (handle_launch st d pid desktopAt).2.killed = st.killed ∧
    launchPollIterations * launchPollSleepMs = 5000 := by
  have hcond : (!(pyTruthyStr d.desktopFile) && !(pyTruthyStr d.executable)) = false := by
    rcases hspawn with h | h <;> rw [h] <;> simp
  have hpoll : (List.range launchPollIterations).findSome?
      (fun k => find_app_by_pid (desktopAt k) pid) = none := by
    rw [List.findSome?_eq_none_iff]
    intro k hk
    exact hnone k (List.mem_range.1 hk)
  have hmain : handle_launch st d pid desktopAt =
      (errResp "App not found in AT-SPI tree",
       { st with spawned := pid :: st.spawned }) := by
    unfold handle_launch
    rw [hcond, hpoll]
    rfl
  refine ⟨hmain, ?_, ?_, ?_, rfl⟩ <;> rw [hmain]

/-- Witness for C3: launching `/bin/true` on a desktop that never shows
the process. -/
theorem c3_launch_timeout_witness :
    pyTruthyStr (⟨none, some "/bin/true", [], none⟩ : LaunchData).executable = true ∧
    (∀ k < launchPollIterations, find_app_by_pid ((fun _ => ([] : List (Option AccNode))) k) 7 = none) ∧
    handle_launch emptySrv ⟨none, some "/bin/true", [], none⟩ 7 (fun _ => []) =
      (errResp "App not found in AT-SPI tree",
       { emptySrv with spawned := [7] }) :=
  ⟨rfl, fun _ _ => rfl,
   (c3_launch_timeout emptySrv ⟨none, some "/bin/true", [], none⟩ 7 (fun _ => [])
     (Or.inr rfl) (fun _ _ => rfl)).1⟩

/-- A root whose `get_child_count` read raises, with no matching role
or name of its own. -/
def c7Bad : AccNode := .mk .panel (some "zzz") none none false [] none (.ok none)

/-- Counterexample to C7 as stated: on a tree whose root's child-count
read fails, `find_element_by_role`, `find_element_by_name` and
`find_elements_by_role` all propagate the failure instead of returning
a normal result. -/
theorem c7_counterexample :
    c7Bad.childCountOkOf = false ∧
    find_element_by_role c7Bad "button" = .error "get_child_count failed" ∧
    find_element_by_name c7Bad "button" = .error "get_child_count failed" ∧
    find_elements_by_role c7Bad "button" = .error "get_child_count failed" := by
  refine ⟨rfl, ?_, ?_, ?_⟩
  · have hl : roleMapFindOne.lookup (pyLower "button") = some Role.pushButton := by
      decide
    unfold find_element_by_role
    rw [hl]
    simp [c7Bad, searchRole]
  · have hm : strIn (pyLower "button") (pyLower (orEmpty (some "zzz"))) = false := by
      decide
    unfold find_element_by_name
    simp [c7Bad, searchName, hm]
  · have hl : roleMapFindMany.lookup (pyLower "button") = some Role.pushButton := by
      decide
    unfold find_elements_by_role
    rw [hl]
    simp [c7Bad, collectRole]

/-- C7 (amended): a child slot whose access yields no node is skipped
and traversal continues, and on a tree whose child-count reads all
succeed every search returns a normal result; but a failing child-count
read is not caught inside any of the searches — it propagates to the
caller (shown at the root: a non-matching root with a failing count
errors for all four searches). -/
theorem c7_traversal_skips_none :
    (∀ (t : Role) (cs : List (Option AccNode)),
      searchRoleList t (none :: cs) = searchRoleList t cs) ∧
    (∀ (nm : String) (cs : List (Option AccNode)),
      searchNameList nm (none :: cs) = searchNameList nm cs) ∧
    (∀ (ds : String) (cs : List (Option AccNode)),
      searchDescrList ds (none :: cs) = searchDescrList ds cs) ∧
    (∀ (t : Role) (cs : List (Option AccNode)),
      collectRoleList t (none :: cs) = collectRoleList t cs) ∧
    (∀ (t : Role) (nd : AccNode), wfTree nd = true → ∃ v, searchRole t nd = .ok v) ∧
    (∀ (nm : String) (nd : AccNode), wfTree nd = true → ∃ v, searchName nm nd = .ok v) ∧
    (∀ (ds : String) (nd : AccNode), wfTree nd = true → ∃ v, searchDescr ds nd = .ok v) ∧
    (∀ (t : Role) (nd : AccNode), wfTree nd = true → ∃ v, collectRole t nd = .ok v) ∧
    (∀ (t : Role) (nd : AccNode), nd.childCountOkOf = false → nd.roleOf ≠ t →
      searchRole t nd = .error "get_child_count failed") ∧
    (∀ (t : Role) (nd : AccNode), nd.childCountOkOf = false →
      collectRole t nd = .error "get_child_count failed") := by
  refine ⟨fun t cs => by rw [searchRoleList], fun nm cs => by rw [searchNameList],
    fun ds cs => by rw [searchDescrList], fun t cs => by rw [collectRoleList],
    fun t nd => searchRole_ok nd, fun nm nd => searchName_ok nd,
    fun ds nd => searchDescr_ok nd, fun t nd => collectRole_ok nd, ?_, ?_⟩
  · intro t nd hcc hr
    cases nd with
    | mk r n d p cc cs a comp =>
      have hcc' : cc = false := hcc
      have hr' : r ≠ t := fun h => hr h
      rw [searchRole, if_neg hr', hcc']
      rfl
  · intro t nd hcc
    cases nd with
    | mk r n d p cc cs a comp =>
      have hcc' : cc = false := hcc
      rw [collectRole, hcc']
      rfl

/-- Witness for C7 (amended): a readable one-node tree searches
normally; the counterexample tree propagates its failing count read. -/
theorem c7_traversal_skips_none_witness :
    wfTree c1Tree = true ∧
    (∃ v, searchRole Role.pushButton c1Tree = .ok v) ∧
    c7Bad.childCountOkOf = false ∧
    c7Bad.roleOf ≠ Role.pushButton ∧
    searchRole Role.pushButton c7Bad = .error "get_child_count failed" := by
  have hwf : wfTree c1Tree = true := by simp [c1Tree, wfTree, wfList]
  exact ⟨hwf,
    c7_traversal_skips_none.2.2.2.2.1 Role.pushButton c1Tree hwf,
    rfl, by decide,
    c7_traversal_skips_none.2.2.2.2.2.2.2.2.1 Role.pushButton c7Bad rfl (by decide)⟩

theorem elemInv_store_elements (es : List AccNode) :
    ∀ st : SrvState, elemInv st → elemInv (store_elements es st).2 := by
  induction es with
  | nil => intro st h; exact h
  | cons e rest ih =>
    intro st h
    rw [store_elements]
    exact ih (store_element e st).2 (elemInv_store e h)

/-- A one-node tree consisting of a single push button. -/
def btnTree : AccNode := .mk .pushButton (some "OK") none none true [] none (.ok none)

/-- A session whose window resolved to `btnTree`. -/
def c8Sess : Session := ⟨"session-1", none, none, some btnTree⟩

/-- The `findElements` payload of the scenario. -/
def c8D : FindData := ⟨some "role", "button", none⟩

/-- State after the first `findElements` call of the scenario. -/
def c8St1 : SrvState := ⟨[], 0, [("ax-1", btnTree)], 1, [], []⟩

/-- State after the second `findElements` call of the scenario. -/
def c8St2 : SrvState := ⟨[], 0, [("ax-2", btnTree), ("ax-1", btnTree)], 2, [], []⟩

theorem find_elements_button : find_elements_by_role btnTree "button" = .ok [btnTree] := by
  have hl : roleMapFindMany.lookup (pyLower "button") = some Role.pushButton := by
    decide
  unfold find_elements_by_role
  rw [hl]
  simp [btnTree, collectRole, collectRoleList, exbind_ok]

theorem handle_find_elements_button (st : SrvState) :
    handle_find_elements c8Sess c8D st =
      .ok ([("elements", .jlist (store_elements [btnTree] st).1)],
           (store_elements [btnTree] st).2) := by
  have hstep : handle_find_elements c8Sess c8D st =
      (find_elements_by_role btnTree "button").bind (fun found =>
        .ok ([("elements", .jlist (store_elements found st).1)],
             (store_elements found st).2)) := by
    unfold handle_find_elements
    rfl
  rw [hstep, find_elements_button, exbindm_ok]

/-- Counterexample to C8 as stated: the two sequential `findElements`
responses against the unchanged one-button tree list different handle
ids — `["ax-1"]` then `["ax-2"]` — so the returned ordered lists are
not identical. -/
theorem c8_counterexample :
    handle_find_elements c8Sess c8D emptySrv =
      .ok ([("elements", .jlist ["ax-1"])], c8St1) ∧
    handle_find_elements c8Sess c8D c8St1 =
      .ok ([("elements", .jlist ["ax-2"])], c8St2) ∧
    (["ax-1"] : List String) ≠ ["ax-2"] := by
  refine ⟨?_, ?_, by decide⟩
  · rw [handle_find_elements_button emptySrv]
    rfl
  · rw [handle_find_elements_button c8St1]
    rfl

/-- C8 (amended): two sequential `findElements` role queries against an
unchanged tree find the same ordered list of nodes — both returned id
lists resolve, in the registry each call leaves behind, to that same
node list, and they have equal length — but the id lists themselves are
disjoint: every id of the first response is absent from the second
(fresh handles are minted per call). -/
theorem c8_same_nodes_fresh_ids (sess : Session) (v : String) (st : SrvState)
    (r : AccNode) (found : List AccNode)
    (hroot : pyOrNode sess.window sess.app = some r)
    (hf : find_elements_by_role r v = .ok found)
    (hinv : elemInv st) :
    handle_find_elements sess ⟨some "role", v, none⟩ st =
      .ok ([("elements", .jlist (store_elements found st).1)],
           (store_elements found st).2) ∧
    handle_find_elements sess ⟨some "role", v, none⟩ (store_elements found st).2 =
      .ok ([("elements", .jlist (store_elements found (store_elements found st).2).1)],
           (store_elements found (store_elements found st).2).2) ∧
    ((store_elements found st).1).map (get_element (store_elements found st).2) =
      found.map some ∧
    ((store_elements found (store_elements found st).2).1).map
        (get_element (store_elements found (store_elements found st).2).2) =
      found.map some ∧
    (store_elements found st).1.length =
      (store_elements found (store_elements found st).2).1.length ∧
    (∀ x ∈ (store_elements found st).1,
      x ∉ (store_elements found (store_elements found st).2).1) := by
  have hcall : ∀ st' : SrvState,
      handle_find_elements sess ⟨some "role", v, none⟩ st' =
        .ok ([("elements", .jlist (store_elements found st').1)],
             (store_elements found st').2) := by
    intro st'
    have hstep : handle_find_elements sess ⟨some "role", v, none⟩ st' =
        (find_elements_by_role r v).bind (fun fnd =>
          .ok ([("elements", .jlist (store_elements fnd st').1)],
               (store_elements fnd st').2)) := by
      unfold handle_find_elements
      rw [hroot]
      rfl
    rw [hstep, hf, exbindm_ok]
  refine ⟨hcall st, hcall (store_elements found st).2,
    store_elements_resolve found st hinv,
    store_elements_resolve found (store_elements found st).2
      (elemInv_store_elements found st hinv), ?_, ?_⟩
  · rw [store_elements_fst found st,
      store_elements_fst found (store_elements found st).2]
    simp
  · intro x hx1 hx2
    rw [store_elements_fst found st] at hx1
    rw [store_elements_fst found (store_elements found st).2,
      store_elements_counter found st] at hx2
    obtain ⟨i, hi, hxi⟩ := List.mem_map.1 hx1
    obtain ⟨j, hj, hxj⟩ := List.mem_map.1 hx2
    simp only [List.mem_range] at hi hj
    rw [← hxi] at hxj
    have := axId_injective hxj
    omega

/-- Witness for C8 (amended) at the one-button scenario from the fresh
state. -/
theorem c8_same_nodes_fresh_ids_witness :
    pyOrNode c8Sess.window c8Sess.app = some btnTree ∧
    find_elements_by_role btnTree "button" = .ok [btnTree] ∧
    elemInv emptySrv ∧
    (∀ x ∈ (store_elements [btnTree] emptySrv).1,
      x ∉ (store_elements [btnTree] (store_elements [btnTree] emptySrv).2).1) := by
  have hinv : elemInv emptySrv := by
    intro q hq
    simp [emptySrv] at hq
  exact ⟨rfl, find_elements_button, hinv,
    (c8_same_nodes_fresh_ids c8Sess "button" emptySrv btnTree [btnTree]
      rfl find_elements_button hinv).2.2.2.2.2⟩

/-- Counterexample to C9 as stated: `find_element_by_role`'s role map
recognizes twenty-six distinct role names, not twenty-seven. -/
theorem c9_counterexample :
    (roleMapFindOne.map Prod.fst).Nodup ∧
    (roleMapFindOne.map Prod.fst).length = 26 ∧
    (roleMapFindOne.map Prod.fst).length ≠ 27 := by
  decide

/-- C9 (amended): `find_elements_by_role` recognizes exactly the five
role names push button / button / text / entry / label, a strict subset
of the twenty-six names of `find_element_by_role` (for instance
`check box` is only in the latter); for every name recognized by the
single-element map but not the many-element map, `findElements` yields
`[]` — without traversing — while `findElement` on a readable tree
containing a node of that role returns such an element. -/
theorem c9_find_many_vocab_subset :
    roleMapFindMany.map Prod.fst =
      ["push button", "button", "text", "entry", "label"] ∧
    roleMapFindOne.length = 26 ∧
    (∀ k ∈ roleMapFindMany.map Prod.fst, k ∈ roleMapFindOne.map Prod.fst) ∧
    ("check box" ∈ roleMapFindOne.map Prod.fst ∧
     "check box" ∉ roleMapFindMany.map Prod.fst) ∧
    (∀ (name : String) (t : Role) (r : AccNode),
      roleMapFindOne.lookup (pyLower name) = some t →
      roleMapFindMany.lookup (pyLower name) = none →
      wfTree r = true → (∃ n ∈ allNodes r, n.roleOf = t) →
      (∃ x, find_element_by_role r name = .ok (some x) ∧ x.roleOf = t) ∧
      find_elements_by_role r name = .ok []) := by
  refine ⟨by decide, by decide, by decide, by decide, ?_⟩
  intro name t r h1 h2 hwf hex
  constructor
  · obtain ⟨x, hx, hrole⟩ := searchRole_finds hwf hex
    refine ⟨x, ?_, hrole⟩
    unfold find_element_by_role
    rw [h1]
    exact hx
  · unfold find_elements_by_role
    rw [h2]

/-- A panel containing one check box. -/
def c9Tree : AccNode :=
  .mk .panel none none none true
    [some (.mk .checkBox (some "Accept") none none true [] none (.ok none))]
    none (.ok none)

/-- Witness for C9 (amended) at `check box` on `c9Tree`. -/
theorem c9_find_many_vocab_subset_witness :
    roleMapFindOne.lookup (pyLower "check box") = some Role.checkBox ∧
    roleMapFindMany.lookup (pyLower "check box") = none ∧
    wfTree c9Tree = true ∧
    (∃ n ∈ allNodes c9Tree, n.roleOf = Role.checkBox) ∧
    ((∃ x, find_element_by_role c9Tree "check box" = .ok (some x) ∧
       x.roleOf = Role.checkBox) ∧
     find_elements_by_role c9Tree "check box" = .ok []) := by
  have hwf : wfTree c9Tree = true := by simp [c9Tree, wfTree, wfList]
  have hex : ∃ n ∈ allNodes c9Tree, n.roleOf = Role.checkBox := by
    refine ⟨.mk .checkBox (some "Accept") none none true [] none (.ok none), ?_, rfl⟩
    simp [c9Tree, allNodes, allNodesList]
  exact ⟨by decide, by decide, hwf, hex,
    c9_find_many_vocab_subset.2.2.2.2 "check box" Role.checkBox c9Tree
      (by decide) (by decide) hwf hex⟩

/-- A session whose window resolved to the failing-count tree `c7Bad`. -/
def c1BadSess : Session := ⟨"session-1", none, none, some c7Bad⟩

/-- Counterexample to C1 as stated: a `findElement` request with a
resolvable search root and a valid strategy whose value matches no node
is *not* always answered with `{elementId: null}` — when the root's
child-count read fails, the traversal's exception propagates and the
handler returns an error instead of the null response. -/
theorem c1_counterexample :
    searchRootOf c1BadSess ⟨some "role", "button", none⟩ emptySrv = some c7Bad ∧
    strategyNoMatch [] c7Bad "role" "button" ∧
    handle_find_element [] c1BadSess ⟨some "role", "button", none⟩ emptySrv =
      .error "get_child_count failed" ∧
    handle_find_element [] c1BadSess ⟨some "role", "button", none⟩ emptySrv ≠
      .ok ([("elementId", JVal.jnull)], emptySrv) := by
  have hnm : strategyNoMatch [] c7Bad "role" "button" := by
    intro t ht n hn
    have hb : roleMapFindOne.lookup (pyLower "button") = some Role.pushButton := by
      decide
    rw [hb] at ht
    cases ht
    have hall : allNodes c7Bad = [c7Bad] := by simp [c7Bad, allNodes, allNodesList]
    rw [hall] at hn
    simp only [List.mem_singleton] at hn
    subst hn
    simp [c7Bad, AccNode.roleOf]
  have hfr : find_element_by_role c7Bad "button" = .error "get_child_count failed" := by
    have hl : roleMapFindOne.lookup (pyLower "button") = some Role.pushButton := by
      decide
    unfold find_element_by_role
    rw [hl]
    simp [c7Bad, searchRole]
  have hmain : handle_find_element [] c1BadSess ⟨some "role", "button", none⟩ emptySrv =
      .error "get_child_count failed" := by
    have hstep : handle_find_element [] c1BadSess ⟨some "role", "button", none⟩
        emptySrv =
        (find_element_by_role c7Bad "button").bind (fun element =>
          match element with
          | some e =>
            let p := store_element e emptySrv
            .ok ([("elementId", JVal.jstr p.1)], p.2)
          | none => .ok ([("elementId", JVal.jnull)], emptySrv)) := by
      unfold handle_find_element
      rfl
    rw [hstep, hfr, exbindm_err]
  refine ⟨rfl, hnm, hmain, ?_⟩
  rw [hmain]
  intro h
  exact Except.noConfusion h
